import Mathlib

/-!
Shallow embedding of the signup-sync service's reconciliation core
(`app/services/funnel_sync_service.py` together with the transactional
context manager of `app/database/connection.py`).

Timestamps are modelled as integers; the database is a triple of lists
(funnel sources, the pending signup queue, the sync log table); Python
`None` becomes `Option.none`; Python truthiness of strings and numbers is
modelled explicitly.  The external MySQL fetch, the per-record storage
faults, and the generated UUIDs are supplied by an environment record so
that every run is a pure function of its inputs.
-/

namespace SignupSync

/-- Python truthiness of an optional string (`None` and `""` are falsy). -/
def pyTruthy : Option String → Bool
  | none => false
  | some s => s != ""

/-- Python `a or b` on optional strings (first truthy value wins). -/
def pyOr (a b : Option String) : Option String :=
  match a with
  | none => b
  | some s => if s == "" then b else some s

/-- Python `str.lower()` (case-folds every character; agrees with Lean's
`String.toLower`, see `pyLower_eq_toLower`, but is stated directly on the
character list so that the kernel can evaluate it). -/
def pyLower (s : String) : String := ⟨s.data.map Char.toLower⟩

/-- Python `str(x)` on an optional string (`str(None) == "None"`). -/
def pyStr : Option String → String
  | none => "None"
  | some s => s

/-- Python `float(appointment.get("price", 0)) if appointment.get("price") else None`:
a missing or zero price becomes `None`. -/
def priceOf : Option Int → Option Int
  | none => none
  | some v => if v == 0 then none else some v

/-- SQL `COALESCE(new, existing)`: the new value wins whenever it is non-NULL. -/
def coalesce (new old : Option String) : Option String :=
  match new with
  | none => old
  | some s => some s

/-- ASCII approximation of Python `str.title()` (first letter of each
alphabetic run upper-cased, the rest lower-cased). -/
def pyTitleAux : List Char → Bool → List Char
  | [], _ => []
  | c :: cs, prevAlpha =>
    let c' := if c.isAlpha then (if prevAlpha then c.toLower else c.toUpper) else c
    c' :: pyTitleAux cs c.isAlpha

/-- Python `str.title()` for the ASCII source-type names used here. -/
def pyTitle (s : String) : String := ⟨pyTitleAux s.data false⟩

/-- A raw EasyAppointments record as consumed by `_add_to_pending_signups`
(the fields the reconciler reads from the fetched dict). -/
structure Appointment where
  appointmentId : Option String
  email : Option String
  firstName : Option String
  lastName : Option String
  company : Option String
  serviceName : Option String
  price : Option Int
  startDatetime : Option String
  mobileNumber : Option String
  phoneNumber : Option String
  address : Option String
  city : Option String
  state : Option String
deriving Repr, DecidableEq

/-- The JSON attribution snapshot written into `signup_metadata`. -/
structure Metadata where
  source : String
  appointmentId : Option String
  serviceName : Option String
  servicePrice : Option Int
  appointmentDatetime : String
  phone : Option String
  city : Option String
  state : Option String
  address : Option String
deriving Repr, DecidableEq

/-- The metadata snapshot built (identically in the update and insert arms)
from the incoming appointment. -/
def mkMetadata (a : Appointment) : Metadata :=
  { source := "easyappointments"
    appointmentId := a.appointmentId
    serviceName := a.serviceName
    servicePrice := priceOf a.price
    appointmentDatetime := pyStr a.startDatetime
    phone := pyOr a.mobileNumber a.phoneNumber
    city := a.city
    state := a.state
    address := a.address }

/-- A row of `pending_signup_queue`. -/
structure PendingRecord where
  id : String
  email : String
  firstName : Option String
  lastName : Option String
  company : Option String
  userType : String
  status : String
  signupMetadata : Metadata
  createdAt : Int
  updatedAt : Int
deriving Repr, DecidableEq

/-- Outcome of one reconcile invocation (the strings returned by
`_add_to_pending_signups`). -/
inductive Outcome where
  | created
  | updated
  | skipped
deriving Repr, DecidableEq

/-- The row transformation the pending-merge `UPDATE` applies to one queue
row: rows keyed by the normalized email get the `COALESCE` name merge, the
wholesale metadata replacement and the `updated_at` bump; all other rows
are untouched. -/
def mergeRow (a : Appointment) (now : Int) (email : String) (x : PendingRecord) :
    PendingRecord :=
  if x.email == email then
    { x with
      firstName := coalesce a.firstName x.firstName
      lastName := coalesce a.lastName x.lastName
      signupMetadata := mkMetadata a
      updatedAt := now }
  else x

/-- The row the `INSERT` writes for a first-seen normalized email. -/
def newPendingRecord (a : Appointment) (newId : String) (now : Int)
    (email : String) : PendingRecord :=
  { id := newId
    email := email
    firstName := a.firstName
    lastName := a.lastName
    company := a.company
    userType := "brand"
    status := "pending"
    signupMetadata := mkMetadata a
    createdAt := now
    updatedAt := now }

/-- Embedding of `_add_to_pending_signups`: skip when no usable email; otherwise look the
case-folded email up in the queue; skip frozen (approved/rejected) rows;
merge into a pending row with `COALESCE` on the name fields, a wholesale
metadata replacement and an `updated_at` bump; insert a fresh `pending` row
when no row matches. -/
def addToPendingSignups (queue : List PendingRecord) (appointment : Appointment)
    (newId : String) (now : Int) : Outcome × List PendingRecord :=
  match appointment.email with
  | none => (.skipped, queue)
  | some rawEmail =>
    if rawEmail == "" then
      (.skipped, queue)
    else
      let email := pyLower rawEmail
      match queue.find? (fun r => r.email == email) with
      | some existing =>
        if existing.status == "approved" || existing.status == "rejected" then
          (.skipped, queue)
        else
          (.updated, queue.map (mergeRow appointment now email))
      | none =>
        (.created, queue ++ [newPendingRecord appointment newId now email])

/-- A row of `funnel_sources`. -/
structure FunnelSource where
  id : String
  sourceType : String
  name : String
  config : String
  isActive : Bool
  lastSyncAt : Option Int
  lastSyncStatus : Option String
  totalLeadsCaptured : Nat
deriving Repr, DecidableEq

/-- A row of `funnel_sync_logs`. -/
structure SyncLog where
  id : String
  funnelSourceId : String
  syncType : String
  syncStatus : String
  leadsProcessed : Nat
  leadsCreated : Nat
  leadsUpdated : Nat
  leadsSkipped : Nat
  errorsCount : Nat
  errorMessages : Option (List String)
  startedAt : Int
  completedAt : Int
  durationSeconds : Int
  createdAt : Int
deriving Repr, DecidableEq

/-- The durable store: the three tables a sync run touches. -/
structure DB where
  sources : List FunnelSource
  queue : List PendingRecord
  syncLogs : List SyncLog
deriving Repr, DecidableEq

/-- The response dict built by a sync run. -/
structure SyncResult where
  status : String
  sourceType : String
  sourceName : String
  leadsProcessed : Nat
  leadsCreated : Nat
  leadsUpdated : Nat
  leadsSkipped : Nat
  errorsCount : Nat
  startedAt : Int
  completedAt : Int
  durationSeconds : Int
  syncLogId : String
  errorMessages : Option (List String)
  summary : String
deriving Repr, DecidableEq

/-- External inputs of one run: the adapter fetch (a function of the
computed `sync_from`), an oracle of per-record storage/conversion faults
(by record index), the per-record fresh UUIDs, the UUID generated for the
sync-log row, the wall-clock at run start (`t0`) and at commit (`t1`). -/
structure RunEnv where
  fetch : Int → Except String (List Appointment)
  fault : Nat → Option String
  uuid : Nat → String
  logId : String
  t0 : Int
  t1 : Int

/-- Tally of one reconcile loop. -/
structure Counts where
  created : Nat
  updated : Nat
  skipped : Nat
  errors : List String
deriving Repr, DecidableEq

/-- The per-record loop of `sync_easyappointments`: a faulting record has
its error message recorded and the loop continues; otherwise the record is
reconciled and tallied by outcome. -/
def reconcileLoop (queue : List PendingRecord) (apps : List Appointment)
    (fault : Nat → Option String) (uuid : Nat → String) (now : Int) :
    List PendingRecord × Counts :=
  match apps with
  | [] => (queue, ⟨0, 0, 0, []⟩)
  | a :: rest =>
    match fault 0 with
    | some msg =>
      let (q, c) := reconcileLoop queue rest (fun n => fault (n + 1))
        (fun n => uuid (n + 1)) now
      (q, { c with errors := msg :: c.errors })
    | none =>
      let step := addToPendingSignups queue a (uuid 0) now
      let (q, c) := reconcileLoop step.2 rest (fun n => fault (n + 1))
        (fun n => uuid (n + 1)) now
      match step.1 with
      | .created => (q, { c with created := c.created + 1 })
      | .updated => (q, { c with updated := c.updated + 1 })
      | .skipped => (q, { c with skipped := c.skipped + 1 })

/-- Value of `self.sync_window_days` as set in `FunnelSyncService.__init__` (days). -/
def syncWindowDaysDefault : Int := 7

/-- The `WHERE source_type = 'easyappointments' AND is_active = true` filter. -/
def easyMatch (s : FunnelSource) : Bool :=
  s.sourceType == "easyappointments" && s.isActive

/-- Python `"success" if not errors else "partial"`. -/
def aggStatus (errors : List String) : String :=
  if errors.isEmpty then "success" else "partial"

/-- The fetch-window lower bound: `now - sync_window_days` when forcing or
when the watermark is null, else the stored watermark. -/
def computeSyncFrom (forceSync : Bool) (lastSync : Option Int) (now : Int)
    (windowDays : Int) : Int :=
  match lastSync with
  | none => now - windowDays
  | some t => if forceSync then now - windowDays else t

/-- Python `errors if errors else None`. -/
def errorsOrNone (errors : List String) : Option (List String) :=
  if errors.isEmpty then none else some errors

/-- Embedding of `sync_easyappointments`, run against a database snapshot: source lookup,
window computation, adapter fetch, reconcile loop, ledger update and audit
insert.  The whole body runs inside `get_db_context`, whose rollback on an
exception is modelled by returning the original database next to the error;
the success branch returns the committed database. -/
def sync_easyappointments (db : DB) (env : RunEnv) (forceSync : Bool) :
    Except String SyncResult × DB :=
  match db.sources.find? easyMatch with
  | none => (.error "No active funnel source found for easyappointments", db)
  | some src =>
    let syncFrom := computeSyncFrom forceSync src.lastSyncAt env.t0 syncWindowDaysDefault
    match env.fetch syncFrom with
    | .error e => (.error e, db)
    | .ok apps =>
      let lr := reconcileLoop db.queue apps env.fault env.uuid env.t1
      let st := aggStatus lr.2.errors
      let sources' := db.sources.map (fun s =>
        if s.id == src.id then
          { s with
            lastSyncAt := some env.t1
            lastSyncStatus := some st
            totalLeadsCaptured := s.totalLeadsCaptured + lr.2.created }
        else s)
      let log : SyncLog :=
        { id := env.logId
          funnelSourceId := src.id
          syncType := "automatic"
          syncStatus := st
          leadsProcessed := apps.length
          leadsCreated := lr.2.created
          leadsUpdated := lr.2.updated
          leadsSkipped := lr.2.skipped
          errorsCount := lr.2.errors.length
          errorMessages := errorsOrNone lr.2.errors
          startedAt := env.t0
          completedAt := env.t1
          durationSeconds := env.t1 - env.t0
          createdAt := env.t1 }
      let resp : SyncResult :=
        { status := st
          sourceType := "easyappointments"
          sourceName := src.name
          leadsProcessed := apps.length
          leadsCreated := lr.2.created
          leadsUpdated := lr.2.updated
          leadsSkipped := lr.2.skipped
          errorsCount := lr.2.errors.length
          startedAt := env.t0
          completedAt := env.t1
          durationSeconds := env.t1 - env.t0
          syncLogId := src.id
          errorMessages := errorsOrNone lr.2.errors
          summary := "Synced " ++ toString lr.2.created ++ " new leads from EasyAppointments" }
      (.ok resp,
        { db with queue := lr.1, sources := sources', syncLogs := db.syncLogs ++ [log] })

/-- Embedding of `_placeholder_sync_response`. -/
def placeholderSyncResponse (sourceType : String) (now : Int) : SyncResult :=
  { status := "success"
    sourceType := sourceType
    sourceName := pyTitle sourceType ++ " Integration"
    leadsProcessed := 0
    leadsCreated := 0
    leadsUpdated := 0
    leadsSkipped := 0
    errorsCount := 0
    startedAt := now
    completedAt := now
    durationSeconds := 0
    syncLogId := "placeholder"
    errorMessages := none
    summary := pyTitle sourceType ++ " sync not yet implemented" }

/-- Embedding of `sync_zoom` (placeholder; `force_sync` is accepted and ignored, the
database is never touched). -/
def sync_zoom (forceSync : Bool) (now : Int) : SyncResult :=
  placeholderSyncResponse "zoom" now

/-- Embedding of `sync_eventbrite` (placeholder). -/
def sync_eventbrite (forceSync : Bool) (now : Int) : SyncResult :=
  placeholderSyncResponse "eventbrite" now

/-- Embedding of `sync_poshvip` (placeholder). -/
def sync_poshvip (forceSync : Bool) (now : Int) : SyncResult :=
  placeholderSyncResponse "poshvip" now

/-- An entry of the list returned by `sync_all_sources`: a source's full
response dict, or the `{status: failed, source_type, error}` dict built when
the source's run raised. -/
inductive EntryResult where
  | ok (r : SyncResult)
  | failed (sourceType : String) (error : String)
deriving Repr, DecidableEq

/-- The key order of the `sync_methods` dict. -/
def declaredSources : List String :=
  ["easyappointments", "zoom", "eventbrite", "poshvip"]

/-- Python `source_types is None or source_type in source_types`. -/
def requestedBy (sourceTypes : Option (List String)) (st : String) : Bool :=
  match sourceTypes with
  | none => true
  | some l => l.contains st

/-- The source type carried by a result entry. -/
def entrySourceType : EntryResult → String
  | .ok r => r.sourceType
  | .failed st _ => st

/-- Embedding of `sync_all_sources`: iterate the declared sources in dict order, filtered
to the requested subset; a raising run is converted to a `failed` entry and
the remaining sources still run.  Only the easyappointments run touches the
database. -/
def sync_all_sources (db : DB) (env : RunEnv) (forceSync : Bool)
    (sourceTypes : Option (List String)) : List EntryResult × DB :=
  let easy :=
    if requestedBy sourceTypes "easyappointments" then
      match sync_easyappointments db env forceSync with
      | (.ok r, db') => ([EntryResult.ok r], db')
      | (.error e, db') => ([EntryResult.failed "easyappointments" e], db')
    else ([], db)
  let zoomEntries :=
    if requestedBy sourceTypes "zoom" then [EntryResult.ok (sync_zoom forceSync env.t0)]
    else []
  let ebEntries :=
    if requestedBy sourceTypes "eventbrite" then
      [EntryResult.ok (sync_eventbrite forceSync env.t0)]
    else []
  let poshEntries :=
    if requestedBy sourceTypes "poshvip" then
      [EntryResult.ok (sync_poshvip forceSync env.t0)]
    else []
  (easy.1 ++ zoomEntries ++ ebEntries ++ poshEntries, easy.2)

/-! ### Derived vocabulary used by the statements -/

/-- Reconcile a whole list of (record, fresh id, timestamp) inputs in order. -/
def runAll (queue : List PendingRecord) (l : List (Appointment × String × Int)) :
    List PendingRecord :=
  l.foldl (fun q x => (addToPendingSignups q x.1 x.2.1 x.2.2).2) queue

/-- Every stored email is already case-folded. -/
def Normalized (q : List PendingRecord) : Prop :=
  ∀ r ∈ q, pyLower r.email = r.email

/-- No two rows of the queue share an email. -/
def UniqueEmails (q : List PendingRecord) : Prop :=
  q.Pairwise (fun a b => a.email ≠ b.email)

/-- The queue invariant maintained by the reconciler. -/
def QueueInv (q : List PendingRecord) : Prop :=
  Normalized q ∧ UniqueEmails q

/-- Number of rows whose case-folded email equals `e`. -/
def countByNormEmail (q : List PendingRecord) (e : String) : Nat :=
  (q.filter (fun r => pyLower r.email == e)).length

/-- Modelled from the spec: "overwrite only fields that are present and
non-empty in the new record" — the per-field merge the spec's words
describe, to be compared with the code's `coalesce`. -/
def mergeFieldSpec (new old : Option String) : Option String :=
  match new with
  | none => old
  | some s => if s == "" then old else some s

/-- The (record, fresh id) pairs of the non-faulting records, in fetch
order, keeping each record's original index for its UUID. -/
def nonFaultedWithIds : List Appointment → (Nat → Option String) → (Nat → String) →
    List (Appointment × String)
  | [], _, _ => []
  | a :: rest, fault, uuid =>
    let tail := nonFaultedWithIds rest (fun n => fault (n + 1)) (fun n => uuid (n + 1))
    match fault 0 with
    | some _ => tail
    | none => (a, uuid 0) :: tail

/-- The fault messages raised over a batch, in fetch order. -/
def faultMessages : List Appointment → (Nat → Option String) → List String
  | [], _ => []
  | _ :: rest, fault =>
    let tail := faultMessages rest (fun n => fault (n + 1))
    match fault 0 with
    | some msg => msg :: tail
    | none => tail

/-- Reconcile a list of (record, fresh id) pairs in order at one timestamp. -/
def applyRecords (queue : List PendingRecord) (l : List (Appointment × String))
    (now : Int) : List PendingRecord :=
  l.foldl (fun q p => (addToPendingSignups q p.1 p.2 now).2) queue

/-- The response of a run, when it committed. -/
def respOf (x : Except String SyncResult × DB) : Option SyncResult :=
  match x.1 with
  | .ok r => some r
  | .error _ => none

/-- The tally of a run's reconcile loop. -/
def runCounts (db : DB) (env : RunEnv) (apps : List Appointment) : Counts :=
  (reconcileLoop db.queue apps env.fault env.uuid env.t1).2

/-- The pending queue after a run's reconcile loop. -/
def runQueue (db : DB) (env : RunEnv) (apps : List Appointment) : List PendingRecord :=
  (reconcileLoop db.queue apps env.fault env.uuid env.t1).1

/-- The ledger update applied to one `funnel_sources` row at commit: the
matching row gets watermark `t1` (the commit clock), the aggregate status
and the `total_leads_captured` increment; other rows are untouched. -/
def updateSource (src : FunnelSource) (env : RunEnv) (c : Counts)
    (s : FunnelSource) : FunnelSource :=
  if s.id == src.id then
    { s with
      lastSyncAt := some env.t1
      lastSyncStatus := some (aggStatus c.errors)
      totalLeadsCaptured := s.totalLeadsCaptured + c.created }
  else s

/-- The SyncRun audit row inserted at commit. -/
def mkLog (src : FunnelSource) (apps : List Appointment) (c : Counts)
    (env : RunEnv) : SyncLog :=
  { id := env.logId
    funnelSourceId := src.id
    syncType := "automatic"
    syncStatus := aggStatus c.errors
    leadsProcessed := apps.length
    leadsCreated := c.created
    leadsUpdated := c.updated
    leadsSkipped := c.skipped
    errorsCount := c.errors.length
    errorMessages := errorsOrNone c.errors
    startedAt := env.t0
    completedAt := env.t1
    durationSeconds := env.t1 - env.t0
    createdAt := env.t1 }

/-- The response dict a committed run returns. -/
def mkResp (src : FunnelSource) (apps : List Appointment) (c : Counts)
    (env : RunEnv) : SyncResult :=
  { status := aggStatus c.errors
    sourceType := "easyappointments"
    sourceName := src.name
    leadsProcessed := apps.length
    leadsCreated := c.created
    leadsUpdated := c.updated
    leadsSkipped := c.skipped
    errorsCount := c.errors.length
    startedAt := env.t0
    completedAt := env.t1
    durationSeconds := env.t1 - env.t0
    syncLogId := src.id
    errorMessages := errorsOrNone c.errors
    summary := "Synced " ++ toString c.created ++ " new leads from EasyAppointments" }

/-! ### Concrete fixtures for the executable scenarios -/

/-- An appointment with every optional field absent. -/
def baseApp : Appointment :=
  { appointmentId := some "ap-1", email := none, firstName := none, lastName := none,
    company := none, serviceName := none, price := none, startDatetime := none,
    mobileNumber := none, phoneNumber := none, address := none, city := none, state := none }

/-- Record `{email: "A@x.com", first_name: "Jane"}`. -/
def appJane : Appointment := { baseApp with email := some "A@x.com", firstName := some "Jane" }

/-- Record `{email: "a@X.com", first_name: null, last_name: "Doe"}`. -/
def appDoe : Appointment := { baseApp with email := some "a@X.com", lastName := some "Doe" }

/-- Record `{email: "a@x.com", first_name: ""}` (present but empty first name). -/
def appEmptyFirst : Appointment :=
  { baseApp with email := some "a@x.com", firstName := some "" }

/-- An appointment carrying only the given email. -/
def appWithEmail (e : String) : Appointment := { baseApp with email := some e }

/-- A pending row for `a@x.com` with first name `Jane`. -/
def pendingJane : PendingRecord :=
  { id := "p1", email := "a@x.com", firstName := some "Jane", lastName := none,
    company := none, userType := "brand", status := "pending",
    signupMetadata := mkMetadata appJane, createdAt := 1, updatedAt := 1 }

/-- The same row frozen by an approval decision. -/
def approvedJane : PendingRecord := { pendingJane with status := "approved" }

/-- The row the reconciler creates for `appJane` on an empty queue. -/
def pendingJaneCreated : PendingRecord :=
  { id := "id1", email := "a@x.com", firstName := some "Jane", lastName := none,
    company := none, userType := "brand", status := "pending",
    signupMetadata := mkMetadata appJane, createdAt := 1, updatedAt := 1 }

/-- An active easyappointments funnel source with a null watermark. -/
def srcEasy : FunnelSource :=
  { id := "SRC-1", sourceType := "easyappointments", name := "EasyAppointments",
    config := "cfg", isActive := true, lastSyncAt := none, lastSyncStatus := none,
    totalLeadsCaptured := 0 }

/-- A database holding only that source. -/
def dbEasy : DB := { sources := [srcEasy], queue := [], syncLogs := [] }

/-- A database with no sources at all. -/
def dbEmpty : DB := { sources := [], queue := [], syncLogs := [] }

/-- An environment whose fetch returns the given batch and nothing faults. -/
def envOk (apps : List Appointment) : RunEnv :=
  { fetch := fun _ => .ok apps, fault := fun _ => none,
    uuid := fun n => "u" ++ toString n, logId := "LOG-1", t0 := 100, t1 := 101 }

/-- An environment whose fetch raises. -/
def envErr : RunEnv :=
  { fetch := fun _ => .error "boom", fault := fun _ => none,
    uuid := fun n => "u" ++ toString n, logId := "LOG-1", t0 := 100, t1 := 101 }

/-- An environment where the third record (index 2) faults during
reconciliation. -/
def envFault3 (apps : List Appointment) : RunEnv :=
  { fetch := fun _ => .ok apps, fault := fun n => if n == 2 then some "bad record" else none,
    uuid := fun n => "u" ++ toString n, logId := "LOG-1", t0 := 100, t1 := 101 }

/-- Five records with distinct emails for the partial-failure scenario. -/
def fiveApps : List Appointment :=
  [appWithEmail "e1@x.com", appWithEmail "e2@x.com", appWithEmail "e3@x.com",
   appWithEmail "e4@x.com", appWithEmail "e5@x.com"]

/-! ### Basic lemmas about the case-fold -/

/-- Reading a valid code point back out of `Char.ofNat`. -/
theorem charToNat_ofNat_valid {n : Nat} (h : n.isValidChar) :
    (Char.ofNat n).toNat = n := by
  simp only [Char.ofNat, dif_pos h, Char.ofNatAux, Char.toNat]
  rfl

/-- The function `Char.toLower` is idempotent. -/
theorem char_toLower_idem (c : Char) : c.toLower.toLower = c.toLower := by
  unfold Char.toLower
  by_cases h : c.toNat ≥ 65 ∧ c.toNat ≤ 90
  · rw [if_pos h]
    have hv : (c.toNat + 32).isValidChar := Or.inl (by omega)
    have hval : (Char.ofNat (c.toNat + 32)).toNat = c.toNat + 32 := charToNat_ofNat_valid hv
    rw [if_neg (by omega)]
  · rw [if_neg h, if_neg h]

/-- The embedded case-fold agrees with Lean's `String.toLower`. -/
theorem pyLower_eq_toLower (s : String) : pyLower s = s.toLower := by
  rw [String.toLower, String.map_eq]; rfl

/-- The case-fold is idempotent. -/
theorem pyLower_idem (s : String) : pyLower (pyLower s) = pyLower s := by
  simp [pyLower, List.map_map, Function.comp_def, char_toLower_idem]

/-- Merging never changes a row's stored email. -/
theorem mergeRow_email (a : Appointment) (now : Int) (e : String)
    (x : PendingRecord) : (mergeRow a now e x).email = x.email := by
  by_cases hx : (x.email == e) = true <;> simp [mergeRow, hx]

/-- One reconcile invocation preserves the queue invariant. -/
theorem addToPending_inv (queue : List PendingRecord) (a : Appointment)
    (newId : String) (now : Int) (h : QueueInv queue) :
    QueueInv (addToPendingSignups queue a newId now).2 := by
  obtain ⟨hnorm, huniq⟩ := h
  cases hemail : a.email with
  | none => simpa [addToPendingSignups, hemail] using And.intro hnorm huniq
  | some s =>
    by_cases hs : (s == "") = true
    · simpa [addToPendingSignups, hemail, hs] using And.intro hnorm huniq
    · rw [Bool.not_eq_true] at hs
      cases hfind : queue.find? (fun r => r.email == pyLower s) with
      | some existing =>
        by_cases hst : (existing.status == "approved"
            || existing.status == "rejected") = true
        · simpa [addToPendingSignups, hemail, hs, hfind, hst]
            using And.intro hnorm huniq
        · rw [Bool.not_eq_true] at hst
          have hres : (addToPendingSignups queue a newId now).2
              = queue.map (mergeRow a now (pyLower s)) := by
            simp [addToPendingSignups, hemail, hs, hfind, hst]
          rw [hres]
          constructor
          · intro r hr
            obtain ⟨x, hx, rfl⟩ := List.mem_map.mp hr
            rw [mergeRow_email]
            exact hnorm x hx
          · exact List.Pairwise.map _
              (fun x y hxy => by rw [mergeRow_email, mergeRow_email]; exact hxy) huniq
      | none =>
        have hres : (addToPendingSignups queue a newId now).2
            = queue ++ [newPendingRecord a newId now (pyLower s)] := by
          simp [addToPendingSignups, hemail, hs, hfind]
        rw [hres]
        constructor
        · intro r hr
          rcases List.mem_append.mp hr with hmem | hmem
          · exact hnorm r hmem
          · simp only [List.mem_singleton] at hmem
            subst hmem
            show pyLower (newPendingRecord a newId now (pyLower s)).email
              = (newPendingRecord a newId now (pyLower s)).email
            simpa [newPendingRecord] using pyLower_idem s
        · unfold UniqueEmails
          rw [List.pairwise_append]
          refine ⟨huniq, List.pairwise_singleton _ _, ?_⟩
          intro x hx y hy
          simp only [List.mem_singleton] at hy
          subst hy
          have hne := List.find?_eq_none.mp hfind x hx
          intro heq
          apply hne
          simp [newPendingRecord] at heq
          simp [heq]

/-- Reconciling any input sequence preserves the queue invariant. -/
theorem runAll_inv (queue : List PendingRecord)
    (l : List (Appointment × String × Int)) (h : QueueInv queue) :
    QueueInv (runAll queue l) := by
  induction l generalizing queue with
  | nil => exact h
  | cons x rest ih => exact ih _ (addToPending_inv queue x.1 x.2.1 x.2.2 h)

/-- Under the invariant there is at most one row per normalized email. -/
theorem count_le_one_of_inv (q : List PendingRecord) (h : QueueInv q)
    (e : String) : countByNormEmail q e ≤ 1 := by
  induction q with
  | nil => simp [countByNormEmail]
  | cons r rest ih =>
    obtain ⟨hnorm, huniq⟩ := h
    unfold UniqueEmails at huniq
    rw [List.pairwise_cons] at huniq
    obtain ⟨hr, huniq'⟩ := huniq
    have hnorm' : Normalized rest := fun x hx => hnorm x (List.mem_cons_of_mem _ hx)
    by_cases hc : (pyLower r.email == e) = true
    · have he : e = r.email := by
        have h1 : pyLower r.email = r.email := hnorm r (List.mem_cons_self r rest)
        have h2 : pyLower r.email = e := by simpa using hc
        rw [← h2, h1]
      have htail : rest.filter (fun x => pyLower x.email == e) = [] := by
        rw [List.filter_eq_nil_iff]
        intro x hx
        have hxn : pyLower x.email = x.email := hnorm' x hx
        have hxr : r.email ≠ x.email := hr x hx
        simp [hxn, he]
        exact fun hh => hxr hh.symm
      simp [countByNormEmail, List.filter_cons, hc, htail]
    · have hstep : countByNormEmail (r :: rest) e = countByNormEmail rest e := by
        simp [countByNormEmail, List.filter_cons, hc]
      rw [hstep]
      exact ih ⟨hnorm', huniq'⟩

/-- After reconciling a record with a usable email, some row carries its
normalized email. -/
theorem addToPending_mem (queue : List PendingRecord) (a : Appointment)
    (newId : String) (now : Int) (s : String)
    (hemail : a.email = some s) (hs : (s == "") = false) :
    ∃ r ∈ (addToPendingSignups queue a newId now).2, r.email = pyLower s := by
  cases hfind : queue.find? (fun r => r.email == pyLower s) with
  | some existing =>
    have hmem := List.mem_of_find?_eq_some hfind
    have hkey : existing.email = pyLower s := by
      have := List.find?_some hfind
      simpa using this
    by_cases hst : (existing.status == "approved" || existing.status == "rejected") = true
    · have hres : (addToPendingSignups queue a newId now).2 = queue := by
        simp [addToPendingSignups, hemail, hs, hfind, hst]
      rw [hres]
      exact ⟨existing, hmem, hkey⟩
    · rw [Bool.not_eq_true] at hst
      have hres : (addToPendingSignups queue a newId now).2
          = queue.map (mergeRow a now (pyLower s)) := by
        simp [addToPendingSignups, hemail, hs, hfind, hst]
      rw [hres]
      exact ⟨mergeRow a now (pyLower s) existing, List.mem_map_of_mem _ hmem,
        by rw [mergeRow_email]; exact hkey⟩
  | none =>
    have hres : (addToPendingSignups queue a newId now).2
        = queue ++ [newPendingRecord a newId now (pyLower s)] := by
      simp [addToPendingSignups, hemail, hs, hfind]
    rw [hres]
    exact ⟨newPendingRecord a newId now (pyLower s),
      List.mem_append_right _ (List.mem_singleton_self _), rfl⟩

/-- A record whose normalized email is already present never inserts. -/
theorem addToPending_not_created (queue : List PendingRecord) (a : Appointment)
    (newId : String) (now : Int) (s : String)
    (hemail : a.email = some s) (hs : (s == "") = false)
    (hmem : ∃ r ∈ queue, r.email = pyLower s) :
    (addToPendingSignups queue a newId now).1 ≠ .created := by
  obtain ⟨r, hr, hre⟩ := hmem
  cases hfind : queue.find? (fun x => x.email == pyLower s) with
  | none =>
    exfalso
    exact List.find?_eq_none.mp hfind r hr (by simp [hre])
  | some existing =>
    by_cases hst : (existing.status == "approved" || existing.status == "rejected") = true
    · simp [addToPendingSignups, hemail, hs, hfind, hst]
    · rw [Bool.not_eq_true] at hst
      simp [addToPendingSignups, hemail, hs, hfind, hst]

/-- A run that raises leaves the database exactly as it was (the rollback of
`get_db_context`). -/
theorem sync_error_db_eq (db : DB) (env : RunEnv) (forceSync : Bool) (e : String)
    (h : (sync_easyappointments db env forceSync).1 = .error e) :
    (sync_easyappointments db env forceSync).2 = db := by
  cases hf : db.sources.find? easyMatch with
  | none => simp [sync_easyappointments, hf]
  | some src =>
    cases hfetch : env.fetch (computeSyncFrom forceSync src.lastSyncAt env.t0
        syncWindowDaysDefault) with
    | error e2 => simp [sync_easyappointments, hf, hfetch]
    | ok apps =>
      exfalso
      simp [sync_easyappointments, hf, hfetch] at h

/-- What one pass of the reconcile loop does: the error list is exactly the
fault messages in order, the queue effect is the sequential reconcile of the
non-faulting records, and every record is tallied exactly once. -/
theorem reconcileLoop_spec (apps : List Appointment) (queue : List PendingRecord)
    (fault : Nat → Option String) (uuid : Nat → String) (now : Int) :
    (reconcileLoop queue apps fault uuid now).2.errors = faultMessages apps fault ∧
    (reconcileLoop queue apps fault uuid now).1
      = applyRecords queue (nonFaultedWithIds apps fault uuid) now ∧
    (reconcileLoop queue apps fault uuid now).2.created
        + (reconcileLoop queue apps fault uuid now).2.updated
        + (reconcileLoop queue apps fault uuid now).2.skipped
        + (reconcileLoop queue apps fault uuid now).2.errors.length
      = apps.length := by
  induction apps generalizing queue fault uuid with
  | nil => simp [reconcileLoop, faultMessages, nonFaultedWithIds, applyRecords]
  | cons a rest ih =>
    cases hf : fault 0 with
    | some msg =>
      obtain ⟨ih1, ih2, ih3⟩ := ih queue (fun n => fault (n + 1)) (fun n => uuid (n + 1))
      refine ⟨?_, ?_, ?_⟩
      · simp [reconcileLoop, faultMessages, hf, ih1]
      · simp [reconcileLoop, nonFaultedWithIds, hf, ih2]
      · simp only [reconcileLoop, hf]
        simp only [List.length_cons]
        omega
    | none =>
      obtain ⟨ih1, ih2, ih3⟩ := ih (addToPendingSignups queue a (uuid 0) now).2
        (fun n => fault (n + 1)) (fun n => uuid (n + 1))
      cases ho : (addToPendingSignups queue a (uuid 0) now).1 <;> refine ⟨?_, ?_, ?_⟩
      · simp [reconcileLoop, faultMessages, hf, ho, ih1]
      · simp only [reconcileLoop, hf, ho]
        simp [nonFaultedWithIds, applyRecords, hf, ih2]
      · simp only [reconcileLoop, hf, ho, List.length_cons]
        omega
      · simp [reconcileLoop, faultMessages, hf, ho, ih1]
      · simp only [reconcileLoop, hf, ho]
        simp [nonFaultedWithIds, applyRecords, hf, ih2]
      · simp only [reconcileLoop, hf, ho, List.length_cons]
        omega
      · simp [reconcileLoop, faultMessages, hf, ho, ih1]
      · simp only [reconcileLoop, hf, ho]
        simp [nonFaultedWithIds, applyRecords, hf, ih2]
      · simp only [reconcileLoop, hf, ho, List.length_cons]
        omega

/-- Full characterization of a run that reaches the commit step. -/
theorem sync_ok_eq (db : DB) (env : RunEnv) (forceSync : Bool) (src : FunnelSource)
    (apps : List Appointment) (hsrc : db.sources.find? easyMatch = some src)
    (hfetch : env.fetch (computeSyncFrom forceSync src.lastSyncAt env.t0
        syncWindowDaysDefault) = .ok apps) :
    sync_easyappointments db env forceSync =
      (.ok (mkResp src apps (runCounts db env apps) env),
       { sources := db.sources.map (updateSource src env (runCounts db env apps))
         queue := runQueue db env apps
         syncLogs := db.syncLogs ++ [mkLog src apps (runCounts db env apps) env] }) := by
  simp [sync_easyappointments, hsrc, hfetch, runCounts, runQueue, mkResp, mkLog,
    updateSource]

/-! ### The claims -/

/-- C1: the reconciler case-folds each record's email before every lookup
and write and the normalized email is the sole join key: from any queue
satisfying the invariant, any sequence of reconcile invocations preserves
it, leaves at most one PendingRecord per normalized email, and a record
whose email differs only in case from one already reconciled can never
produce a duplicate insert (its outcome is never `created`). -/
theorem email_normalization_unique (queue : List PendingRecord)
    (l : List (Appointment × String × Int)) (h : QueueInv queue) :
    QueueInv (runAll queue l) ∧
    (∀ e, countByNormEmail (runAll queue l) e ≤ 1) ∧
    (∀ (a b : Appointment) (ida idb : String) (ta tb : Int) (sa sb : String),
      a.email = some sa → sa ≠ "" → b.email = some sb → sb ≠ "" →
      pyLower sa = pyLower sb →
      (addToPendingSignups (addToPendingSignups (runAll queue l) a ida ta).2
        b idb tb).1 ≠ .created) := by
  have hinv := runAll_inv queue l h
  refine ⟨hinv, fun e => count_le_one_of_inv _ hinv e, ?_⟩
  intro a b ida idb ta tb sa sb ha hsa hb hsb hlow
  have hsa' : (sa == "") = false := by simpa using hsa
  have hsb' : (sb == "") = false := by simpa using hsb
  obtain ⟨r, hr, hre⟩ := addToPending_mem (runAll queue l) a ida ta sa ha hsa'
  exact addToPending_not_created _ b idb tb sb hb hsb'
    ⟨r, hr, by rw [hre, hlow]⟩

/-- Witness for C1: starting from the empty queue and reconciling
`A@x.com`, the invariant holds, every normalized email has at most one row,
and any case variant of an already-seen email can never insert. -/
theorem email_normalization_unique_witness :
    QueueInv [] ∧
    (QueueInv (runAll [] [(appJane, "id1", 1)]) ∧
      (∀ e, countByNormEmail (runAll [] [(appJane, "id1", 1)]) e ≤ 1) ∧
      (∀ (a b : Appointment) (ida idb : String) (ta tb : Int) (sa sb : String),
        a.email = some sa → sa ≠ "" → b.email = some sb → sb ≠ "" →
        pyLower sa = pyLower sb →
        (addToPendingSignups
          (addToPendingSignups (runAll [] [(appJane, "id1", 1)]) a ida ta).2
          b idb tb).1 ≠ .created)) :=
  ⟨⟨fun r hr => absurd hr (List.not_mem_nil r), List.Pairwise.nil⟩,
    email_normalization_unique [] [(appJane, "id1", 1)]
      ⟨fun r hr => absurd hr (List.not_mem_nil r), List.Pairwise.nil⟩⟩

/-- C2: a record whose normalized email matches a PendingRecord whose status
is `approved` or `rejected` is reported `skipped` and the queue — that row
included — is left byte-for-byte unchanged, so replaying records after the
decision never mutates the store. -/
theorem frozen_after_decision (queue : List PendingRecord) (a : Appointment)
    (newId : String) (now : Int) (s : String) (r : PendingRecord)
    (hemail : a.email = some s) (hne : s ≠ "")
    (hfind : queue.find? (fun x => x.email == pyLower s) = some r)
    (hstat : r.status = "approved" ∨ r.status = "rejected") :
    addToPendingSignups queue a newId now = (.skipped, queue) := by
  have hbeq : (s == "") = false := by simpa using hne
  rcases hstat with h | h <;>
    simp [addToPendingSignups, hemail, hbeq, hfind, h]

/-- Witness for C2: replaying a case-variant of an approved signup is
skipped and changes nothing. -/
theorem frozen_after_decision_witness :
    appJane.email = some "A@x.com" ∧
    [approvedJane].find? (fun x => x.email == pyLower "A@x.com") = some approvedJane ∧
    approvedJane.status = "approved" ∧
    addToPendingSignups [approvedJane] appJane "fresh-id" 9 = (.skipped, [approvedJane]) :=
  ⟨rfl, by decide, rfl,
    frozen_after_decision [approvedJane] appJane "fresh-id" 9 "A@x.com" approvedJane
      rfl (by decide) (by decide) (Or.inl rfl)⟩

/-- C3 fails as stated: the code's per-field merge is `COALESCE(new,
existing)`, which lets a present-but-EMPTY first name overwrite an existing
one, while "overwrite only fields that are present and non-empty" would
keep it: merging `{first_name: ""}` into the pending `Jane` row stores
`""`, not `"Jane"`. -/
theorem merge_nonempty_counterexample :
    coalesce (some "") (some "Jane") = some "" ∧
    mergeFieldSpec (some "") (some "Jane") = some "Jane" ∧
    (addToPendingSignups [pendingJane] appEmptyFirst "id9" 5).1 = .updated ∧
    ((addToPendingSignups [pendingJane] appEmptyFirst "id9" 5).2.map
      PendingRecord.firstName) = [some ""] := by
  decide

/-- C3 (amended): a record matching a pending row is merged with
first-non-NULL-wins (`COALESCE(new, existing)`) on the name fields — a
present-but-empty string also overwrites — the metadata snapshot is
replaced wholesale, `updated_at` is bumped, other rows and the row's other
columns are untouched, and the outcome is `updated`; reconciling
`{first_name: "Jane"}` then `{first_name: null, last_name: "Doe"}` yields
`{first_name: "Jane", last_name: "Doe"}`. -/
theorem merge_pending_coalesce (queue : List PendingRecord) (a : Appointment)
    (newId : String) (now : Int) (s : String) (r : PendingRecord)
    (hemail : a.email = some s) (hne : s ≠ "")
    (hfind : queue.find? (fun x => x.email == pyLower s) = some r)
    (hpending : r.status = "pending") :
    (addToPendingSignups queue a newId now).1 = .updated ∧
    (addToPendingSignups queue a newId now).2 = queue.map (mergeRow a now (pyLower s)) ∧
    (∀ x, (mergeRow a now (pyLower s) x).id = x.id ∧
      (mergeRow a now (pyLower s) x).email = x.email ∧
      (mergeRow a now (pyLower s) x).status = x.status ∧
      (mergeRow a now (pyLower s) x).company = x.company ∧
      (mergeRow a now (pyLower s) x).createdAt = x.createdAt) ∧
    (∀ x, x.email = pyLower s →
      (mergeRow a now (pyLower s) x).firstName = coalesce a.firstName x.firstName ∧
      (mergeRow a now (pyLower s) x).lastName = coalesce a.lastName x.lastName ∧
      (mergeRow a now (pyLower s) x).signupMetadata = mkMetadata a ∧
      (mergeRow a now (pyLower s) x).updatedAt = now) ∧
    (((addToPendingSignups
        (addToPendingSignups [] appJane "id1" 1).2 appDoe "id2" 2).2.map
          (fun x => (x.firstName, x.lastName))) = [(some "Jane", some "Doe")]) := by
  have hbeq : (s == "") = false := by simpa using hne
  refine ⟨?_, ?_, ?_, ?_, by decide⟩
  · simp [addToPendingSignups, hemail, hbeq, hfind, hpending, mergeRow]
  · simp only [addToPendingSignups, hemail, hbeq, hfind, hpending]
    simp [mergeRow, hpending]
  · intro x
    by_cases hx : (x.email == pyLower s) = true <;> simp [mergeRow, hx]
  · intro x hx
    simp [mergeRow, hx]

/-- Witness for C3 (amended): the `{first_name: null, last_name: "Doe"}`
record merged into the freshly created `Jane` row. -/
theorem merge_pending_coalesce_witness :
    appDoe.email = some "a@X.com" ∧
    (addToPendingSignups [] appJane "id1" 1).2.find?
      (fun x => x.email == pyLower "a@X.com") = some pendingJaneCreated ∧
    pendingJaneCreated.status = "pending" ∧
    ((addToPendingSignups (addToPendingSignups [] appJane "id1" 1).2 appDoe "id2" 2).1
        = .updated ∧
      (addToPendingSignups (addToPendingSignups [] appJane "id1" 1).2 appDoe "id2" 2).2
        = (addToPendingSignups [] appJane "id1" 1).2.map
            (mergeRow appDoe 2 (pyLower "a@X.com")) ∧
      (∀ x, (mergeRow appDoe 2 (pyLower "a@X.com") x).id = x.id ∧
        (mergeRow appDoe 2 (pyLower "a@X.com") x).email = x.email ∧
        (mergeRow appDoe 2 (pyLower "a@X.com") x).status = x.status ∧
        (mergeRow appDoe 2 (pyLower "a@X.com") x).company = x.company ∧
        (mergeRow appDoe 2 (pyLower "a@X.com") x).createdAt = x.createdAt) ∧
      (∀ x, x.email = pyLower "a@X.com" →
        (mergeRow appDoe 2 (pyLower "a@X.com") x).firstName
            = coalesce appDoe.firstName x.firstName ∧
        (mergeRow appDoe 2 (pyLower "a@X.com") x).lastName
            = coalesce appDoe.lastName x.lastName ∧
        (mergeRow appDoe 2 (pyLower "a@X.com") x).signupMetadata = mkMetadata appDoe ∧
        (mergeRow appDoe 2 (pyLower "a@X.com") x).updatedAt = 2) ∧
      (((addToPendingSignups
          (addToPendingSignups [] appJane "id1" 1).2 appDoe "id2" 2).2.map
            (fun x => (x.firstName, x.lastName))) = [(some "Jane", some "Doe")])) :=
  ⟨rfl, by decide, rfl,
    merge_pending_coalesce (addToPendingSignups [] appJane "id1" 1).2 appDoe "id2" 2
      "a@X.com" pendingJaneCreated rfl (by decide) (by decide) rfl⟩

/-- C4: whenever a single-source run raises before the ledger commit (no
active source, or the adapter fetch failing), the whole database — the
source's watermark, the pending queue and the audit log — is exactly what it
was before the call: nothing of the run survives. -/
theorem failure_rolls_back (db : DB) (env : RunEnv) (forceSync : Bool) (e : String)
    (h : (sync_easyappointments db env forceSync).1 = .error e) :
    (sync_easyappointments db env forceSync).2 = db ∧
    ((sync_easyappointments db env forceSync).2).sources.map FunnelSource.lastSyncAt
      = db.sources.map FunnelSource.lastSyncAt ∧
    ((sync_easyappointments db env forceSync).2).syncLogs.length = db.syncLogs.length := by
  have := sync_error_db_eq db env forceSync e h
  exact ⟨this, by rw [this], by rw [this]⟩

/-- Witness for C4: a fetch failure on a configured source leaves the
database untouched. -/
theorem failure_rolls_back_witness :
    (sync_easyappointments dbEasy envErr false).1 = .error "boom" ∧
    (sync_easyappointments dbEasy envErr false).2 = dbEasy :=
  ⟨rfl, (failure_rolls_back dbEasy envErr false "boom" rfl).1⟩

/-- C5: a run that reaches the commit step updates, in the same transaction
as the record writes, the matching FunnelSource row — watermark to the
commit clock `t1` (also when it was previously null, and independently of
the `sync_from` lower bound), `last_sync_status` to the aggregate status,
`total_leads_captured` incremented by exactly the created count — and
appends one SyncRun audit row carrying the run's counts, error messages and
timing. -/
theorem commit_ledger_writes (db : DB) (env : RunEnv) (forceSync : Bool)
    (src : FunnelSource) (apps : List Appointment)
    (hsrc : db.sources.find? easyMatch = some src)
    (hfetch : env.fetch (computeSyncFrom forceSync src.lastSyncAt env.t0
        syncWindowDaysDefault) = .ok apps) :
    (sync_easyappointments db env forceSync).2.sources
        = db.sources.map (updateSource src env (runCounts db env apps)) ∧
    (∀ s, (updateSource src env (runCounts db env apps) s).lastSyncAt
        = if s.id == src.id then some env.t1 else s.lastSyncAt) ∧
    (∀ s, (updateSource src env (runCounts db env apps) s).totalLeadsCaptured
        = if s.id == src.id then s.totalLeadsCaptured + (runCounts db env apps).created
          else s.totalLeadsCaptured) ∧
    (∀ s, (updateSource src env (runCounts db env apps) s).lastSyncStatus
        = if s.id == src.id then some (aggStatus (runCounts db env apps).errors)
          else s.lastSyncStatus) ∧
    (sync_easyappointments db env forceSync).2.syncLogs
        = db.syncLogs ++ [mkLog src apps (runCounts db env apps) env] ∧
    (sync_easyappointments db env forceSync).2.queue = runQueue db env apps := by
  have h := sync_ok_eq db env forceSync src apps hsrc hfetch
  refine ⟨by rw [h], ?_, ?_, ?_, by rw [h], by rw [h]⟩ <;>
    intro s <;> by_cases hs : (s.id == src.id) = true <;> simp [updateSource, hs]

/-- Witness for C5: one created lead against a source with a null
watermark; the watermark lands on the commit clock. -/
theorem commit_ledger_writes_witness :
    dbEasy.sources.find? easyMatch = some srcEasy ∧
    (envOk [appJane]).fetch (computeSyncFrom false srcEasy.lastSyncAt
        (envOk [appJane]).t0 syncWindowDaysDefault) = .ok [appJane] ∧
    ((sync_easyappointments dbEasy (envOk [appJane]) false).2.sources
        = dbEasy.sources.map
            (updateSource srcEasy (envOk [appJane]) (runCounts dbEasy (envOk [appJane]) [appJane])) ∧
      (∀ s, (updateSource srcEasy (envOk [appJane])
            (runCounts dbEasy (envOk [appJane]) [appJane]) s).lastSyncAt
          = if s.id == srcEasy.id then some (envOk [appJane]).t1 else s.lastSyncAt) ∧
      (∀ s, (updateSource srcEasy (envOk [appJane])
            (runCounts dbEasy (envOk [appJane]) [appJane]) s).totalLeadsCaptured
          = if s.id == srcEasy.id then
              s.totalLeadsCaptured + (runCounts dbEasy (envOk [appJane]) [appJane]).created
            else s.totalLeadsCaptured) ∧
      (∀ s, (updateSource srcEasy (envOk [appJane])
            (runCounts dbEasy (envOk [appJane]) [appJane]) s).lastSyncStatus
          = if s.id == srcEasy.id then
              some (aggStatus (runCounts dbEasy (envOk [appJane]) [appJane]).errors)
            else s.lastSyncStatus) ∧
      (sync_easyappointments dbEasy (envOk [appJane]) false).2.syncLogs
          = dbEasy.syncLogs
              ++ [mkLog srcEasy [appJane] (runCounts dbEasy (envOk [appJane]) [appJane])
                    (envOk [appJane])] ∧
      (sync_easyappointments dbEasy (envOk [appJane]) false).2.queue
          = runQueue dbEasy (envOk [appJane]) [appJane]) :=
  ⟨rfl, rfl, commit_ledger_writes dbEasy (envOk [appJane]) false srcEasy [appJane] rfl rfl⟩

/-- C6: a per-record fault is caught and recorded — the loop continues, the
run still commits, `leads_processed` counts every fetched record (failed
ones included), `errors_count` counts exactly the faults, the status is
`partial` exactly when at least one record faulted and `success` exactly
when none did, and the surviving queue is the sequential reconcile of the
non-faulting records; in the spec's 5-record scenario with record #3
faulting the run yields processed 5, one error, status `partial`, and
records #1, #2, #4, #5 committed. -/
theorem record_failure_isolation (db : DB) (env : RunEnv) (forceSync : Bool)
    (src : FunnelSource) (apps : List Appointment)
    (hsrc : db.sources.find? easyMatch = some src)
    (hfetch : env.fetch (computeSyncFrom forceSync src.lastSyncAt env.t0
        syncWindowDaysDefault) = .ok apps) :
    (sync_easyappointments db env forceSync).1
        = .ok (mkResp src apps (runCounts db env apps) env) ∧
    (mkResp src apps (runCounts db env apps) env).leadsProcessed = apps.length ∧
    (runCounts db env apps).errors = faultMessages apps env.fault ∧
    (mkResp src apps (runCounts db env apps) env).errorsCount
        = (faultMessages apps env.fault).length ∧
    (mkResp src apps (runCounts db env apps) env).status
        = (if (faultMessages apps env.fault).isEmpty then "success" else "partial") ∧
    (mkResp src apps (runCounts db env apps) env).leadsCreated
        + (mkResp src apps (runCounts db env apps) env).leadsUpdated
        + (mkResp src apps (runCounts db env apps) env).leadsSkipped
        + (mkResp src apps (runCounts db env apps) env).errorsCount
      = apps.length ∧
    (sync_easyappointments db env forceSync).2.queue
        = applyRecords db.queue (nonFaultedWithIds apps env.fault env.uuid) env.t1 ∧
    (runCounts dbEasy (envFault3 fiveApps) fiveApps).errors = ["bad record"] ∧
    ((runQueue dbEasy (envFault3 fiveApps) fiveApps).map PendingRecord.email)
        = ["e1@x.com", "e2@x.com", "e4@x.com", "e5@x.com"] ∧
    aggStatus (runCounts dbEasy (envFault3 fiveApps) fiveApps).errors = "partial" ∧
    fiveApps.length = 5 := by
  obtain ⟨l1, l2, l3⟩ := reconcileLoop_spec apps db.queue env.fault env.uuid env.t1
  have h := sync_ok_eq db env forceSync src apps hsrc hfetch
  refine ⟨by rw [h], rfl, l1, ?_, ?_, ?_, ?_, by decide, by decide, by decide, by decide⟩
  · simp [mkResp, runCounts, l1]
  · simp [mkResp, aggStatus, runCounts, l1]
  · simp only [mkResp]
    simpa [runCounts, l1] using l3
  · rw [h]
    simpa [runQueue] using l2

/-- Witness for C6: the 5-record batch with record #3 faulting, run
end-to-end. -/
theorem record_failure_isolation_witness :
    dbEasy.sources.find? easyMatch = some srcEasy ∧
    (envFault3 fiveApps).fetch (computeSyncFrom false srcEasy.lastSyncAt
        (envFault3 fiveApps).t0 syncWindowDaysDefault) = .ok fiveApps ∧
    ((sync_easyappointments dbEasy (envFault3 fiveApps) false).1
        = .ok (mkResp srcEasy fiveApps (runCounts dbEasy (envFault3 fiveApps) fiveApps)
            (envFault3 fiveApps)) ∧
      (mkResp srcEasy fiveApps (runCounts dbEasy (envFault3 fiveApps) fiveApps)
          (envFault3 fiveApps)).leadsProcessed = fiveApps.length ∧
      (runCounts dbEasy (envFault3 fiveApps) fiveApps).errors
          = faultMessages fiveApps (envFault3 fiveApps).fault ∧
      (mkResp srcEasy fiveApps (runCounts dbEasy (envFault3 fiveApps) fiveApps)
          (envFault3 fiveApps)).errorsCount
          = (faultMessages fiveApps (envFault3 fiveApps).fault).length ∧
      (mkResp srcEasy fiveApps (runCounts dbEasy (envFault3 fiveApps) fiveApps)
          (envFault3 fiveApps)).status
          = (if (faultMessages fiveApps (envFault3 fiveApps).fault).isEmpty then "success"
             else "partial") ∧
      (mkResp srcEasy fiveApps (runCounts dbEasy (envFault3 fiveApps) fiveApps)
            (envFault3 fiveApps)).leadsCreated
          + (mkResp srcEasy fiveApps (runCounts dbEasy (envFault3 fiveApps) fiveApps)
              (envFault3 fiveApps)).leadsUpdated
          + (mkResp srcEasy fiveApps (runCounts dbEasy (envFault3 fiveApps) fiveApps)
              (envFault3 fiveApps)).leadsSkipped
          + (mkResp srcEasy fiveApps (runCounts dbEasy (envFault3 fiveApps) fiveApps)
              (envFault3 fiveApps)).errorsCount
        = fiveApps.length ∧
      (sync_easyappointments dbEasy (envFault3 fiveApps) false).2.queue
          = applyRecords dbEasy.queue
              (nonFaultedWithIds fiveApps (envFault3 fiveApps).fault (envFault3 fiveApps).uuid)
              (envFault3 fiveApps).t1 ∧
      (runCounts dbEasy (envFault3 fiveApps) fiveApps).errors = ["bad record"] ∧
      ((runQueue dbEasy (envFault3 fiveApps) fiveApps).map PendingRecord.email)
          = ["e1@x.com", "e2@x.com", "e4@x.com", "e5@x.com"] ∧
      aggStatus (runCounts dbEasy (envFault3 fiveApps) fiveApps).errors = "partial" ∧
      fiveApps.length = 5) :=
  ⟨rfl, rfl,
    record_failure_isolation dbEasy (envFault3 fiveApps) false srcEasy fiveApps rfl rfl⟩

/-- A committed easyappointments run reports itself under its own source
type. -/
theorem sync_ok_sourceType (db : DB) (env : RunEnv) (forceSync : Bool)
    (r : SyncResult) (db' : DB)
    (h : sync_easyappointments db env forceSync = (.ok r, db')) :
    r.sourceType = "easyappointments" := by
  cases hf : db.sources.find? easyMatch with
  | none => simp [sync_easyappointments, hf] at h
  | some src =>
    cases hfetch : env.fetch (computeSyncFrom forceSync src.lastSyncAt env.t0
        syncWindowDaysDefault) with
    | error e => simp [sync_easyappointments, hf, hfetch] at h
    | ok apps =>
      have h2 := sync_ok_eq db env forceSync src apps hf hfetch
      rw [h] at h2
      injection h2 with ha hb
      injection ha with hr
      rw [hr]
      rfl

/-- C8: `sync_all_sources` visits the fixed declared list
(easyappointments, zoom, eventbrite, poshvip) in order, filtered to the
requested subset, producing exactly one entry per requested declared
source; a source whose run raises becomes a `failed` entry carrying its
source type and error and the remaining sources still run, with the
database rolled back to its pre-call state. -/
theorem multi_source_isolation (db : DB) (env : RunEnv) (forceSync : Bool)
    (req : Option (List String)) :
    ((sync_all_sources db env forceSync req).1.map entrySourceType)
        = declaredSources.filter (requestedBy req) ∧
    (∀ e, (sync_easyappointments db env forceSync).1 = .error e →
      (sync_all_sources db env forceSync req).2 = db ∧
      (requestedBy req "easyappointments" = true →
        (sync_all_sources db env forceSync req).1.head?
          = some (.failed "easyappointments" e))) := by
  constructor
  · rcases hs : sync_easyappointments db env forceSync with ⟨r, db2⟩
    have hty : ∀ v : SyncResult, r = .ok v → v.sourceType = "easyappointments" := by
      intro v hv
      exact sync_ok_sourceType db env forceSync v db2 (by rw [hs, hv])
    cases r with
    | ok v =>
      have := hty v rfl
      cases h1 : requestedBy req "easyappointments" <;>
      cases h2 : requestedBy req "zoom" <;>
      cases h3 : requestedBy req "eventbrite" <;>
      cases h4 : requestedBy req "poshvip" <;>
        simp [sync_all_sources, hs, h1, h2, h3, h4, declaredSources, entrySourceType,
          sync_zoom, sync_eventbrite, sync_poshvip, placeholderSyncResponse,
          List.filter, this]
    | error e =>
      cases h1 : requestedBy req "easyappointments" <;>
      cases h2 : requestedBy req "zoom" <;>
      cases h3 : requestedBy req "eventbrite" <;>
      cases h4 : requestedBy req "poshvip" <;>
        simp [sync_all_sources, hs, h1, h2, h3, h4, declaredSources, entrySourceType,
          sync_zoom, sync_eventbrite, sync_poshvip, placeholderSyncResponse,
          List.filter]
  · intro e he
    have hdb : (sync_easyappointments db env forceSync).2 = db :=
      sync_error_db_eq db env forceSync e he
    rcases hs : sync_easyappointments db env forceSync with ⟨r, db2⟩
    rw [hs] at he hdb
    simp only at he hdb
    subst he
    subst hdb
    constructor
    · cases h1 : requestedBy req "easyappointments" <;>
        simp [sync_all_sources, hs, h1]
    · intro hreq
      simp [sync_all_sources, hs, hreq]

/-- Witness for C8: the spec's scenario — easyappointments requested
together with zoom, its fetch raising — yields exactly the two entries in
declaration order, a `failed` one first, and an untouched database. -/
theorem multi_source_isolation_witness :
    (sync_easyappointments dbEasy envErr false).1 = .error "boom" ∧
    ((sync_all_sources dbEasy envErr false (some ["easyappointments", "zoom"])).1.map
        entrySourceType) = ["easyappointments", "zoom"] ∧
    (sync_all_sources dbEasy envErr false (some ["easyappointments", "zoom"])).2
        = dbEasy ∧
    (sync_all_sources dbEasy envErr false (some ["easyappointments", "zoom"])).1.head?
        = some (.failed "easyappointments" "boom") :=
  ⟨rfl,
    (multi_source_isolation dbEasy envErr false (some ["easyappointments", "zoom"])).1,
    ((multi_source_isolation dbEasy envErr false
        (some ["easyappointments", "zoom"])).2 "boom" rfl).1,
    ((multi_source_isolation dbEasy envErr false
        (some ["easyappointments", "zoom"])).2 "boom" rfl).2 rfl⟩

/-- C9 names a real slip in the code: every contract field of the committed
response is populated, but `sync_log_id` is `str(source_id)` — the
FunnelSource id — while the SyncRun audit row is inserted under a fresh
`gen_random_uuid()`, so the returned `sync_log_id` does NOT identify the
audit row. -/
theorem sync_log_id_not_audit_row_id :
    respOf (sync_easyappointments dbEasy (envOk []) false)
      = some { status := "success", sourceType := "easyappointments",
               sourceName := "EasyAppointments", leadsProcessed := 0, leadsCreated := 0,
               leadsUpdated := 0, leadsSkipped := 0, errorsCount := 0, startedAt := 100,
               completedAt := 101, durationSeconds := 1, syncLogId := "SRC-1",
               errorMessages := none,
               summary := "Synced 0 new leads from EasyAppointments" } ∧
    ((sync_easyappointments dbEasy (envOk []) false).2.syncLogs.map SyncLog.id)
      = ["LOG-1"] ∧
    ("SRC-1" : String) ≠ "LOG-1" := by
  decide

/-- C7: the fetch-window lower bound is `now - sync_window_days` (7 by
default) when forcing or when the watermark is null, and the stored
watermark otherwise, so an incremental sync resumes at the previous run's
watermark. -/
theorem sync_window_lower_bound (forceSync : Bool) (lastSync : Option Int) (now : Int) :
    ((forceSync = true ∨ lastSync = none) →
      computeSyncFrom forceSync lastSync now syncWindowDaysDefault = now - 7) ∧
    (∀ t, forceSync = false → lastSync = some t →
      computeSyncFrom forceSync lastSync now syncWindowDaysDefault = t) := by
  constructor
  · rintro (rfl | rfl)
    · cases lastSync <;> simp [computeSyncFrom, syncWindowDaysDefault]
    · simp [computeSyncFrom, syncWindowDaysDefault]
  · rintro t rfl rfl
    simp [computeSyncFrom]

/-- Witness for C7: a forced sync rewinds 7 days even with a watermark; an
unforced sync resumes at the watermark. -/
theorem sync_window_lower_bound_witness :
    computeSyncFrom true (some 42) 100 syncWindowDaysDefault = 100 - 7 ∧
    computeSyncFrom false (some 42) 100 syncWindowDaysDefault = 42 :=
  ⟨(sync_window_lower_bound true (some 42) 100).1 (Or.inl rfl),
    (sync_window_lower_bound false (some 42) 100).2 42 rfl rfl⟩

/-- C10: the zoom, eventbrite and poshvip syncs are placeholders: for either
value of `force_sync` they return the fixed all-zero success response with
`sync_log_id = "placeholder"`, and running them through `sync_all_sources`
leaves the database untouched. -/
theorem placeholder_sources_fixed_response (forceSync : Bool) (now : Int) :
    sync_zoom forceSync now =
      { status := "success", sourceType := "zoom", sourceName := "Zoom Integration",
        leadsProcessed := 0, leadsCreated := 0, leadsUpdated := 0, leadsSkipped := 0,
        errorsCount := 0, startedAt := now, completedAt := now, durationSeconds := 0,
        syncLogId := "placeholder", errorMessages := none,
        summary := "Zoom sync not yet implemented" } ∧
    sync_eventbrite forceSync now =
      { status := "success", sourceType := "eventbrite",
        sourceName := "Eventbrite Integration",
        leadsProcessed := 0, leadsCreated := 0, leadsUpdated := 0, leadsSkipped := 0,
        errorsCount := 0, startedAt := now, completedAt := now, durationSeconds := 0,
        syncLogId := "placeholder", errorMessages := none,
        summary := "Eventbrite sync not yet implemented" } ∧
    sync_poshvip forceSync now =
      { status := "success", sourceType := "poshvip", sourceName := "Poshvip Integration",
        leadsProcessed := 0, leadsCreated := 0, leadsUpdated := 0, leadsSkipped := 0,
        errorsCount := 0, startedAt := now, completedAt := now, durationSeconds := 0,
        syncLogId := "placeholder", errorMessages := none,
        summary := "Poshvip sync not yet implemented" } ∧
    (∀ db env, (sync_all_sources db env forceSync (some ["zoom", "eventbrite", "poshvip"])).2 = db) :=
  ⟨rfl, rfl, rfl, fun _ _ => rfl⟩

end SignupSync
